import Mathlib

/-!
Verification of the MoA-prediction training core (src/models/kmlp.py).

The development shallowly embeds the pieces of the source the claims are
about:

* `DynamicKerasClassifier` — the stateful wrapper that, at `fit` time,
  rebinds the model builder to the data's shape and stores the rare-label
  frequency mask `_freqs`, and at `predict_proba` time blends the raw
  model output with the stored frequencies (kmlp.py lines 97-142);
* the orchestrators `cv_fit` and `fit` (kmlp.py lines 162-227), generic
  over the estimator (in the source, the pipeline is an opaque sklearn
  object) and over the loss metric (sklearn's `log_loss`);
* floating-point payloads are modelled as `FVal` (a rational, NaN, or a
  signed infinity) so that `np.nan_to_num` — NaN to 0, infinities to the
  largest-magnitude finite float — is expressible.
-/

namespace Kmlp

/-- A numeric matrix, as a list of rows of rationals. -/
abbrev Mat : Type := List (List ℚ)

/-- Width of a matrix (`shape[1]`): the length of the first row. -/
def matWidth (A : Mat) : ℕ := (A.headD []).length

/-- Mean of column `j` of `y` (`y.mean(0)` componentwise, kmlp.py:132). -/
def colMean (y : Mat) (j : ℕ) : ℚ :=
  ((y.map (fun r => r.getD j 0)).sum) / (y.length : ℚ)

/-- The stored frequency vector computed by `DynamicKerasClassifier.fit`
(kmlp.py:131-133): `cut = 200. / X.shape[0]`, `freqs = y.mean(0)`,
`_freqs = freqs * (freqs < cut)` — numpy multiplies componentwise by the
0/1 comparison mask. -/
def fitFreqs (X y : Mat) : List ℚ :=
  let cut : ℚ := 200 / (X.length : ℚ)
  (List.range (matWidth y)).map (fun j =>
    let f := colMean y j
    f * (if f < cut then 1 else 0))

/-- Error raised when `predict_proba` runs before `fit`: in the source the
attribute `_freqs` (and the wrapped model) does not exist yet, so the call
fails; the spec's error taxonomy names this InvalidStateError. -/
inductive InvalidStateError where
  | mk
deriving DecidableEq, Repr

/-- State of a `DynamicKerasClassifier` instance: the `(input_units,
output_units)` pair most recently bound into `build_fn` via
`functools.partial` (kmlp.py:99-103; call-time keywords of the outermost
partial override the stored ones, so the latest binding is the effective
one), and the stored `_freqs` vector. Both are `none` before any `fit`. -/
structure DynamicKerasClassifier where
  boundDims : Option (ℕ × ℕ)
  freqs : Option (List ℚ)
deriving DecidableEq, Repr

/-- A freshly built classifier (`build_model`, kmlp.py:145-152): no shape
bound, no frequency mask, nothing fitted. -/
def newClassifier : DynamicKerasClassifier := ⟨none, none⟩

/-- `DynamicKerasClassifier.fit` (kmlp.py:98-134): rebinds the builder to
this call's shapes and overwrites `_freqs` from this call's data; the
previous state `c` does not enter the result. -/
def DynamicKerasClassifier.fit (_c : DynamicKerasClassifier) (X y : Mat) :
    DynamicKerasClassifier :=
  { boundDims := some (matWidth X, matWidth y),
    freqs := some (fitFreqs X y) }

/-- The blending step of `predict_proba` (kmlp.py:137-141): on the columns
`j` with `_freqs[j] > 0`, replace the probability by the average with the
stored frequency; other columns pass through unchanged. -/
def blendMat (fs : List ℚ) (raw : Mat) : Mat :=
  raw.map (fun row =>
    (List.range row.length).map (fun j =>
      let p := row.getD j 0
      let f := fs.getD j 0
      if f > 0 then (p + f) / 2 else p))

/-- `DynamicKerasClassifier.predict_proba` (kmlp.py:136-142), with the raw
output of the wrapped model's predict passed explicitly (the model is a
black box here). Before `fit` the stored `_freqs` does not exist and the
call fails. -/
def DynamicKerasClassifier.predictProba (c : DynamicKerasClassifier)
    (raw : Mat) : Except InvalidStateError Mat :=
  match c.freqs with
  | none => .error .mk
  | some fs => .ok (blendMat fs raw)

end Kmlp

namespace Kmlp

/-! Basic lemmas about the mask and the blend. -/

theorem fitFreqs_length (X y : Mat) : (fitFreqs X y).length = matWidth y := by
  simp [fitFreqs]

theorem fitFreqs_getD (X y : Mat) (j : ℕ) (hj : j < matWidth y) :
    (fitFreqs X y).getD j 0 =
      if colMean y j < 200 / (X.length : ℚ) then colMean y j else 0 := by
  have hlen : j < (fitFreqs X y).length := by
    rw [fitFreqs_length]; exact hj
  rw [List.getD_eq_getElem _ _ hlen]
  simp only [fitFreqs, List.getElem_map, List.getElem_range]
  split <;> simp

theorem blendMat_length (fs : List ℚ) (raw : Mat) :
    (blendMat fs raw).length = raw.length := by
  simp [blendMat]

theorem blendMat_row_length (fs : List ℚ) (raw : Mat) (i : ℕ)
    (hi : i < raw.length) :
    ((blendMat fs raw).getD i []).length = (raw.getD i []).length := by
  have hi' : i < (blendMat fs raw).length := by rw [blendMat_length]; exact hi
  rw [List.getD_eq_getElem _ _ hi', List.getD_eq_getElem _ _ hi]
  simp [blendMat]

theorem blendMat_entry (fs : List ℚ) (raw : Mat) (i j : ℕ)
    (hi : i < raw.length) (hj : j < (raw.getD i []).length) :
    ((blendMat fs raw).getD i []).getD j 0 =
      (if fs.getD j 0 > 0
        then ((raw.getD i []).getD j 0 + fs.getD j 0) / 2
        else (raw.getD i []).getD j 0) := by
  have hi' : i < (blendMat fs raw).length := by rw [blendMat_length]; exact hi
  rw [List.getD_eq_getElem _ _ hi] at hj ⊢
  rw [List.getD_eq_getElem _ _ hi']
  simp only [blendMat, List.getElem_map]
  have hj' : j < ((List.range (raw[i].length)).map (fun j =>
      let p := raw[i].getD j 0
      let f := fs.getD j 0
      if f > 0 then (p + f) / 2 else p)).length := by
    simpa using hj
  rw [List.getD_eq_getElem _ _ hj']
  simp [List.getD_eq_getElem _ _ hj]

/-! Claim C1, C2, C3, C7, C9 theorems about the classifier. -/

/-- C1: after every `fit(X, y)` with `n = X.length`, the stored mask has one
entry per label; entry `j` equals the empirical positive rate `mean(y[:, j])`
when that rate is strictly below `200 / n` and is exactly 0 otherwise; the
mask is computed from this call's data alone, whatever the previous state
`c` was (so it overwrites any earlier mask). -/
theorem fit_rare_label_mask (c : DynamicKerasClassifier) (X y : Mat) (j : ℕ)
    (hj : j < matWidth y) :
    (c.fit X y).freqs = some (fitFreqs X y) ∧
    (fitFreqs X y).length = matWidth y ∧
    (fitFreqs X y).getD j 0 =
      (if colMean y j < 200 / (X.length : ℚ) then colMean y j else 0) :=
  ⟨rfl, fitFreqs_length X y, fitFreqs_getD X y j hj⟩

/-- Witness for C1 at a concrete input: one row, one label, one positive. -/
theorem fit_rare_label_mask_witness :
    (newClassifier.fit [[0]] [[1]]).freqs = some (fitFreqs [[0]] [[1]]) ∧
    (fitFreqs [[0]] [[1]]).length = matWidth [[1]] ∧
    (fitFreqs [[0]] [[1]]).getD 0 0 =
      (if colMean [[1]] 0 < 200 / ((List.length ([[0]] : Mat)) : ℚ)
        then colMean [[1]] 0 else 0) :=
  fit_rare_label_mask newClassifier [[0]] [[1]] 0 (by decide)

/-- C2: on a fitted classifier (stored mask `fs`), `predict_proba` succeeds
and returns a matrix of the same shape as the raw model output whose entry
at `(i, j)` is `(raw + fs[j]) / 2` when `fs[j] > 0` and the raw entry
unchanged otherwise. -/
theorem predictProba_blend_correct (bd : Option (ℕ × ℕ)) (fs : List ℚ)
    (raw : Mat) (i j : ℕ) (hi : i < raw.length)
    (hj : j < (raw.getD i []).length) :
    (DynamicKerasClassifier.mk bd (some fs)).predictProba raw =
      .ok (blendMat fs raw) ∧
    (blendMat fs raw).length = raw.length ∧
    (∀ i2, i2 < raw.length →
      ((blendMat fs raw).getD i2 []).length = (raw.getD i2 []).length) ∧
    ((blendMat fs raw).getD i []).getD j 0 =
      (if fs.getD j 0 > 0
        then ((raw.getD i []).getD j 0 + fs.getD j 0) / 2
        else (raw.getD i []).getD j 0) :=
  ⟨rfl, blendMat_length fs raw,
    fun i2 hi2 => blendMat_row_length fs raw i2 hi2,
    blendMat_entry fs raw i j hi hj⟩

/-- Witness for C2 at a concrete input: mask `[1]`, one raw row `[0]`. -/
theorem predictProba_blend_correct_witness :
    (DynamicKerasClassifier.mk none (some [1])).predictProba [[0]] =
      .ok (blendMat [1] [[0]]) ∧
    (blendMat [1] [[0]]).length = List.length ([[0]] : Mat) ∧
    (∀ i2, i2 < List.length ([[0]] : Mat) →
      ((blendMat [1] [[0]]).getD i2 []).length =
        ((([[0]] : Mat)).getD i2 []).length) ∧
    ((blendMat [1] [[0]]).getD 0 []).getD 0 0 =
      (if ([(1 : ℚ)]).getD 0 0 > 0
        then (((([[0]] : Mat)).getD 0 []).getD 0 0 + ([(1 : ℚ)]).getD 0 0) / 2
        else ((([[0]] : Mat)).getD 0 []).getD 0 0) :=
  predictProba_blend_correct none [1] [[0]] 0 0 (by decide) (by decide)

/-- Feature matrix of the spec's concrete scenario: 4 rows (its entries are
irrelevant; only the row count enters the cutoff). -/
def XC3 : Mat := [[0], [0], [0], [0]]

/-- Label matrix of the spec's concrete scenario. -/
def yC3 : Mat := [[1, 0], [1, 0], [0, 0], [0, 1]]

/-- C3 counterexample: with 4 rows the cutoff is `200 / 4 = 50`, so label
1's rate `1/2` is also below the cutoff and the fitted mask is
`[1/2, 1/4]`, not the claimed `[0, 1/4]`. -/
theorem scenario_mask_counterexample :
    (newClassifier.fit XC3 yC3).freqs ≠ some [0, 1/4] ∧
    (newClassifier.fit XC3 yC3).freqs = some [1/2, 1/4] := by
  have h : fitFreqs XC3 yC3 = [1/2, 1/4] := by
    simp [fitFreqs, matWidth, XC3, yC3, colMean, List.range_succ]
    norm_num
  constructor
  · simp [DynamicKerasClassifier.fit, h]
  · simp [DynamicKerasClassifier.fit, h]

/-- C3 amended: in the scenario both labels are rare under the code's cutoff
`200 / 4 = 50`, so the mask is `[1/2, 1/4]`; a raw output of `0.6`
everywhere is blended to `(0.6 + 1/2) / 2 = 0.55` on label 1 and
`(0.6 + 1/4) / 2 = 0.425` on label 2, on every row. -/
theorem scenario_mask_amended :
    (newClassifier.fit XC3 yC3).freqs = some [1/2, 1/4] ∧
    (newClassifier.fit XC3 yC3).predictProba
        [[3/5, 3/5], [3/5, 3/5], [3/5, 3/5], [3/5, 3/5]] =
      .ok [[11/20, 17/40], [11/20, 17/40], [11/20, 17/40], [11/20, 17/40]] := by
  have h : fitFreqs XC3 yC3 = [1/2, 1/4] := by
    simp [fitFreqs, matWidth, XC3, yC3, colMean, List.range_succ]
    norm_num
  constructor
  · simp [DynamicKerasClassifier.fit, h]
  · simp [DynamicKerasClassifier.predictProba, DynamicKerasClassifier.fit, h,
      blendMat, List.range_succ]
    norm_num

/-- C7: on a freshly built classifier `predict_proba` fails with
InvalidStateError for every input, and after any `fit` call it succeeds;
`fit` is the transition from the unfit to the fit state. -/
theorem predictProba_requires_fit :
    (∀ raw : Mat, newClassifier.predictProba raw = .error .mk) ∧
    newClassifier.freqs = none ∧
    (∀ (c : DynamicKerasClassifier) (X y raw : Mat),
      (c.fit X y).predictProba raw = .ok (blendMat (fitFreqs X y) raw)) :=
  ⟨fun _ => rfl, rfl, fun _ _ _ _ => rfl⟩

/-- First-fit data of the C9 counterexample: width 3 and 2. -/
def XC9a : Mat := [[0, 0, 0]]

/-- First-fit labels of the C9 counterexample. -/
def yC9a : Mat := [[0, 0]]

/-- Second-fit data of the C9 counterexample: width 5 and 7. -/
def XC9b : Mat := [[0, 0, 0, 0, 0]]

/-- Second-fit labels of the C9 counterexample. -/
def yC9b : Mat := [[0, 0, 0, 0, 0, 0, 0]]

/-- C9 counterexample: a second `fit` with differently shaped data rebinds
the builder's dimensions — `(3, 2)` after the first fit becomes `(5, 7)`
after the second (the outermost `functools.partial` keywords win), so the
bound dimensions do change on a subsequent fit. -/
theorem dims_rebinding_counterexample :
    ((newClassifier.fit XC9a yC9a).fit XC9b yC9b).boundDims ≠
      (newClassifier.fit XC9a yC9a).boundDims ∧
    (newClassifier.fit XC9a yC9a).boundDims = some (3, 2) ∧
    ((newClassifier.fit XC9a yC9a).fit XC9b yC9b).boundDims = some (5, 7) := by
  refine ⟨?_, by decide, by decide⟩
  decide

/-- C9 amended: the dimensionality binding is redone at every `fit` call
from that call's data — each call stores `(width X, width y)` over whatever
was bound before (and the wrapped Keras estimator rebuilds its model from
that binding on each fit); the binding is fixed only across the lifetime of
an instance that is fit once, which is how `cv_fit` uses its clones. -/
theorem fit_binds_dims_every_call (c : DynamicKerasClassifier) (X y : Mat) :
    (c.fit X y).boundDims = some (matWidth X, matWidth y) ∧
    (c.fit X y).freqs = some (fitFreqs X y) :=
  ⟨rfl, rfl⟩

/-! The orchestrator (`cv_fit` and `fit`, kmlp.py:162-227). Probability
entries coming back from the estimator are IEEE-style values: a finite
number, a NaN, or a signed infinity. -/

/-- A floating-point payload: finite (modelled exactly as a rational), NaN,
or a signed infinity. -/
inductive FVal where
  | finite (q : ℚ)
  | nan
  | posInf
  | negInf
deriving DecidableEq, Repr

/-- The largest finite double, the value `np.nan_to_num` substitutes for
`+inf` (1.7976931348623157e308). -/
def maxFloat : ℚ := 17976931348623157 * 10 ^ 292

/-- One entry of `np.nan_to_num` with default arguments: NaN becomes 0,
`+inf` the largest finite double, `-inf` its negation; finite values pass
through. -/
def FVal.nanToNum : FVal → FVal
  | .nan => .finite 0
  | .posInf => .finite maxFloat
  | .negInf => .finite (-maxFloat)
  | .finite q => .finite q

/-- IEEE addition on the modelled values: NaN propagates, opposite
infinities give NaN, an infinity absorbs finite values. -/
def FVal.add : FVal → FVal → FVal
  | .nan, _ => .nan
  | _, .nan => .nan
  | .posInf, .negInf => .nan
  | .negInf, .posInf => .nan
  | .posInf, _ => .posInf
  | _, .posInf => .posInf
  | .negInf, _ => .negInf
  | _, .negInf => .negInf
  | .finite a, .finite b => .finite (a + b)

/-- Division of a value by a (positive) integer count, as in
`preds / cv.n_splits`. -/
def FVal.divNat (v : FVal) (k : ℕ) : FVal :=
  match v with
  | .finite q => .finite (q / (k : ℚ))
  | v => v

/-- A value is finite when it is neither NaN nor an infinity. -/
def FVal.isFinite : FVal → Bool
  | .finite _ => true
  | _ => false

/-- A prediction matrix: rows of floating-point values. -/
abbrev FMat : Type := List (List FVal)

/-- The matrix-level `np.nan_to_num` (kmlp.py:185, 190, 195, 215, 221). -/
def fmatNanToNum (A : FMat) : FMat := A.map (fun r => r.map FVal.nanToNum)

/-- Elementwise matrix addition (`test_preds += ...`, kmlp.py:196). -/
def fmatAdd (A B : FMat) : FMat := List.zipWith (List.zipWith FVal.add) A B

/-- Elementwise division by a count (`preds / cv.n_splits`, kmlp.py:196). -/
def fmatDivNat (A : FMat) (k : ℕ) : FMat :=
  A.map (fun r => r.map (fun v => v.divNat k))

/-- The all-zero accumulator `np.zeros((X_test.shape[0], y.shape[1]))`
(kmlp.py:165). -/
def zeroMat (r c : ℕ) : FMat :=
  List.replicate r (List.replicate c (.finite 0))

/-- Every entry of the matrix is finite. -/
def allFinite (A : FMat) : Prop :=
  ∀ r ∈ A, ∀ v ∈ r, v.isFinite = true

/-- A feature row: the treatment-type string in the first column
(`X.iloc[:, 0]` / `X[:, 0]`), then the numeric payload. -/
abbrev Row : Type := String × List ℚ

/-- The control sentinel compared against the first column (kmlp.py:178,
209). -/
def ctlVehicle : String := "ctl_vehicle"

/-- A fold splitter: the declared `n_splits` attribute and the
`(train indices, validation indices)` pairs its `split` yields. -/
structure Splitter where
  nSplits : ℕ
  folds : List (List ℕ × List ℕ)

/-- The validation blocks of `sklearn.model_selection.KFold` without
shuffling: `k` contiguous blocks, the first `n % k` of size `n / k + 1`,
the rest of size `n / k`. -/
def kfoldValSets (k n : ℕ) : List (List ℕ) :=
  (List.range k).map (fun i =>
    let base := n / k
    let extra := n % k
    let size := base + (if i < extra then 1 else 0)
    let start := i * base + min i extra
    (List.range size).map (fun t => start + t))

/-- The split geometry of a validated `KFold(n_splits=k)` over `n` rows:
each validation block paired with the remaining indices as the training
set. The constructor- and split-time checks sklearn performs before any
fold is yielded live in `KFold` below; this is the splitter they hand out
on success. -/
def kfold (k n : ℕ) : Splitter :=
  { nSplits := k,
    folds := (kfoldValSets k n).map (fun v =>
      ((List.range n).filter (fun t => t ∉ v), v)) }

/-- Error raised by sklearn's validation of the default splitter. -/
inductive ValueError where
  | mk
deriving DecidableEq, Repr

/-- `KFold(n_splits=k)` used on `n` rows: `_BaseKFold.__init__` raises
ValueError when `n_splits ≤ 1`, and `split` raises ValueError when
`n_splits` exceeds the number of samples, before yielding any fold; only
otherwise does the splitter produce its folds. -/
def KFold (k n : ℕ) : Except ValueError Splitter :=
  if k < 2 then .error .mk
  else if n < k then .error .mk
  else .ok (kfold k n)

/-- Index selection, `X.iloc[idx]` / `y[idx]`. -/
def selectIdx {α : Type} (l : List α) (idx : List ℕ) : List α :=
  idx.filterMap (fun i => l[i]?)

/-- The control-row filter (kmlp.py:177-180, 209-211): the boolean mask
`X[:, 0] == "ctl_vehicle"` is negated and applied to the feature rows and
to the label rows alike. -/
def dropCtl (X : List Row) (y : Mat) : List Row × Mat :=
  let kept := (X.zip y).filter (fun p => p.1.1 ≠ ctlVehicle)
  (kept.map Prod.fst, kept.map Prod.snd)

/-- An estimator template (in the source, the preprocessing pipeline ending
in the classifier): `clone` of an unfitted template reproduces the
template, and fitting it on a training set yields its predict function. -/
structure Estimator where
  fitPredict : List Row → Mat → List Row → FMat

/-- The training data of one fold: rows at the train indices with control
rows dropped (kmlp.py:174-180). -/
def cvFoldTrain (X : List Row) (y : Mat) (fold : List ℕ × List ℕ) :
    List Row × Mat :=
  dropCtl (selectIdx X fold.1) (selectIdx y fold.1)

/-- The validation feature rows of one fold: the rows at the validation
indices, unfiltered (kmlp.py:174). -/
def cvFoldVal (X : List Row) (fold : List ℕ × List ℕ) : List Row :=
  selectIdx X fold.2

/-- What one iteration of the fold loop produces (kmlp.py:170-196). -/
structure FoldResult where
  estimator : List Row → FMat
  lossTrain : ℚ
  lossValid : ℚ
  testPred : FMat

/-- One iteration of the fold loop (kmlp.py:170-196): clone the template,
split, drop control rows from the training split only, fit, and score the
sanitized predictions on the training rows, the validation rows and the
test rows; `logLoss` is sklearn's `log_loss` on the flattened labels and
probabilities, external here. -/
def runFold (clf : Estimator) (X : List Row) (y : Mat) (Xtest : List Row)
    (logLoss : List ℚ → List FVal → ℚ) (fold : List ℕ × List ℕ) :
    FoldResult :=
  let tr := cvFoldTrain X y fold
  let est := clf.fitPredict tr.1 tr.2
  let trainPreds := fmatNanToNum (est tr.1)
  let lossTr := logLoss tr.2.flatten trainPreds.flatten
  let valPreds := fmatNanToNum (est (cvFoldVal X fold))
  let lossVal := logLoss (selectIdx y fold.2).flatten valPreds.flatten
  let testPred := fmatNanToNum (est Xtest)
  ⟨est, lossTr, lossVal, testPred⟩

/-- What `cv_fit` returns (kmlp.py:198-203). -/
structure CVResult where
  estimators : List (List Row → FMat)
  lossesTrain : List ℚ
  lossesValid : List ℚ
  testPreds : FMat

/-- `cv_fit` (kmlp.py:162-203): run the folds of the given splitter and
accumulate each fold's sanitized test prediction divided by the splitter's
`n_splits` into the zero accumulator. The `none` case stands for the
already-validated default `KFold(n_splits)` — the ValueError checks that
precede it are modelled by `cv_fit_default` below, the entry point the
program actually runs when no splitter is passed. -/
def cv_fit (clf : Estimator) (X : List Row) (y : Mat) (Xtest : List Row)
    (logLoss : List ℚ → List FVal → ℚ) (cvOpt : Option Splitter)
    (nSplits : ℕ) : CVResult :=
  let cv := cvOpt.getD (kfold nSplits X.length)
  let results := cv.folds.map (runFold clf X y Xtest logLoss)
  { estimators := results.map (fun r => r.estimator),
    lossesTrain := results.map (fun r => r.lossTrain),
    lossesValid := results.map (fun r => r.lossValid),
    testPreds := results.foldl
      (fun acc r => fmatAdd acc (fmatDivNat r.testPred cv.nSplits))
      (zeroMat Xtest.length (matWidth y)) }

/-- `cv_fit(clf, X, y, X_test, cv=None, n_splits=k)` as the program runs it
(kmlp.py:163 constructs `KFold(n_splits)`): the default splitter is
validated — raising ValueError for `n_splits ≤ 1` at construction and for
more splits than rows at split time — and only on success does the fold
loop run. -/
def cv_fit_default (clf : Estimator) (X : List Row) (y : Mat)
    (Xtest : List Row) (logLoss : List ℚ → List FVal → ℚ) (nSplits : ℕ) :
    Except ValueError CVResult :=
  (KFold nSplits X.length).map
    (fun cv => cv_fit clf X y Xtest logLoss (some cv) nSplits)

/-- Single-shot `fit` (kmlp.py:206-227): drop control rows once, fit, score
the filtered training set — the same sanitized loss is appended to both
loss lists — and sanitize the test prediction. -/
def fit (clf : Estimator) (X : List Row) (y : Mat) (Xtest : List Row)
    (logLoss : List ℚ → List FVal → ℚ) :
    (List Row → FMat) × List ℚ × List ℚ × FMat :=
  let tr := dropCtl X y
  let est := clf.fitPredict tr.1 tr.2
  let trainPreds := fmatNanToNum (est tr.1)
  let loss := logLoss tr.2.flatten trainPreds.flatten
  let testPreds := fmatNanToNum (est Xtest)
  (est, [loss], [loss], testPreds)

/-- The sanitized test prediction of each fold, in fold order. -/
def foldTestPreds (clf : Estimator) (X : List Row) (y : Mat)
    (Xtest : List Row) (logLoss : List ℚ → List FVal → ℚ)
    (folds : List (List ℕ × List ℕ)) : List FMat :=
  folds.map (fun f => (runFold clf X y Xtest logLoss f).testPred)

/-- Elementwise sum of a list of matrices onto an accumulator. -/
def sumPredsFrom (Z : FMat) (l : List FMat) : FMat := l.foldl fmatAdd Z

/-- The spec's arithmetic mean of a list of prediction matrices: their
elementwise sum divided by how many there are. Written from the spec's
words, to be compared with what `cv_fit` accumulates. -/
def specArithMean (Z : FMat) (l : List FMat) : FMat :=
  fmatDivNat (sumPredsFrom Z l) l.length

/-- One entry of a matrix (with a default of 0 outside the shape). -/
def entryAt (A : FMat) (i j : ℕ) : FVal := (A.getD i []).getD j (.finite 0)

end Kmlp

namespace Kmlp

/-! Algebra of `FVal` and the matrix operations, feeding the `cv_fit`
averaging claims. -/

theorem FVal.divNat_add (a b : FVal) (k : ℕ) :
    (a.add b).divNat k = (a.divNat k).add (b.divNat k) := by
  cases a <;> cases b <;> simp [FVal.add, FVal.divNat, add_div]

theorem FVal.add_right_comm (z a b : FVal) :
    (z.add a).add b = (z.add b).add a := by
  cases z <;> cases a <;> cases b <;> simp [FVal.add] <;> ring

theorem rowDivNat_add (r s : List FVal) (k : ℕ) :
    (List.zipWith FVal.add r s).map (fun v => v.divNat k) =
      List.zipWith FVal.add (r.map (fun v => v.divNat k))
        (s.map (fun v => v.divNat k)) := by
  rw [List.map_zipWith, List.zipWith_map]
  have h : (fun (a b : FVal) => (a.add b).divNat k) =
      (fun (a b : FVal) => (a.divNat k).add (b.divNat k)) := by
    funext a b
    exact FVal.divNat_add a b k
  rw [h]

theorem fmatDivNat_add (A B : FMat) (k : ℕ) :
    fmatDivNat (fmatAdd A B) k = fmatAdd (fmatDivNat A k) (fmatDivNat B k) := by
  unfold fmatDivNat fmatAdd
  rw [List.map_zipWith, List.zipWith_map]
  have h : (fun (r s : List FVal) =>
        (List.zipWith FVal.add r s).map (fun v => v.divNat k)) =
      (fun (r s : List FVal) =>
        List.zipWith FVal.add (r.map (fun v => v.divNat k))
          (s.map (fun v => v.divNat k))) := by
    funext r s
    exact rowDivNat_add r s k
  rw [h]

theorem fmatDivNat_zeroMat (r c k : ℕ) :
    fmatDivNat (zeroMat r c) k = zeroMat r c := by
  simp [fmatDivNat, zeroMat, List.map_replicate, FVal.divNat]

theorem foldl_add_div (l : List FMat) (k : ℕ) (Z : FMat) :
    l.foldl (fun acc p => fmatAdd acc (fmatDivNat p k)) (fmatDivNat Z k) =
      fmatDivNat (l.foldl fmatAdd Z) k := by
  induction l using List.reverseRecOn generalizing Z with
  | nil => rfl
  | append_singleton l p ih =>
    simp only [List.foldl_append, List.foldl_cons, List.foldl_nil]
    rw [ih, fmatDivNat_add]

theorem row_add_right_comm (z a b : List FVal) :
    List.zipWith FVal.add (List.zipWith FVal.add z a) b =
      List.zipWith FVal.add (List.zipWith FVal.add z b) a := by
  induction z generalizing a b with
  | nil => simp
  | cons x zs ih =>
    cases a with
    | nil => simp
    | cons a1 as =>
      cases b with
      | nil => simp
      | cons b1 bs =>
        simp only [List.zipWith_cons_cons]
        exact congrArg₂ _ (FVal.add_right_comm x a1 b1) (ih as bs)

theorem fmatAdd_right_comm (Z A B : FMat) :
    fmatAdd (fmatAdd Z A) B = fmatAdd (fmatAdd Z B) A := by
  unfold fmatAdd
  induction Z generalizing A B with
  | nil => simp
  | cons z zs ih =>
    cases A with
    | nil => simp
    | cons a as =>
      cases B with
      | nil => simp
      | cons b bs =>
        simp only [List.zipWith_cons_cons]
        exact congrArg₂ _ (row_add_right_comm z a b) (ih as bs)

theorem foldl_fmatAdd_perm {l1 l2 : List FMat} (h : List.Perm l1 l2) :
    ∀ Z : FMat, l1.foldl fmatAdd Z = l2.foldl fmatAdd Z := by
  induction h with
  | nil => intro Z; rfl
  | cons x _ ih =>
    intro Z
    simp only [List.foldl_cons]
    exact ih (fmatAdd Z x)
  | swap x y l =>
    intro Z
    simp only [List.foldl_cons]
    rw [fmatAdd_right_comm]
  | trans _ _ ih1 ih2 =>
    intro Z
    rw [ih1 Z, ih2 Z]

theorem cv_fit_testPreds_eq_foldl (clf : Estimator) (X : List Row) (y : Mat)
    (Xtest : List Row) (logLoss : List ℚ → List FVal → ℚ) (cv : Splitter)
    (n0 : ℕ) :
    (cv_fit clf X y Xtest logLoss (some cv) n0).testPreds =
      (foldTestPreds clf X y Xtest logLoss cv.folds).foldl
        (fun acc p => fmatAdd acc (fmatDivNat p cv.nSplits))
        (zeroMat Xtest.length (matWidth y)) := by
  simp [cv_fit, foldTestPreds, List.foldl_map]

theorem cv_fit_testPreds_eq_div_sum (clf : Estimator) (X : List Row)
    (y : Mat) (Xtest : List Row) (logLoss : List ℚ → List FVal → ℚ)
    (cv : Splitter) (n0 : ℕ) :
    (cv_fit clf X y Xtest logLoss (some cv) n0).testPreds =
      fmatDivNat
        (sumPredsFrom (zeroMat Xtest.length (matWidth y))
          (foldTestPreds clf X y Xtest logLoss cv.folds)) cv.nSplits := by
  rw [cv_fit_testPreds_eq_foldl, sumPredsFrom]
  have h0 : zeroMat Xtest.length (matWidth y) =
      fmatDivNat (zeroMat Xtest.length (matWidth y)) cv.nSplits :=
    (fmatDivNat_zeroMat _ _ _).symm
  conv_lhs => rw [h0]
  rw [foldl_add_div]

/-- C4: for every genuine k-fold run (the splitter yields exactly
`k = n_splits` folds), the test-prediction matrix `cv_fit` returns is the
running sum over folds of that fold's sanitized test prediction divided by
`k`, which equals the arithmetic mean of the `k` per-fold matrices, and is
unchanged when the splitter yields the same folds in any other order. -/
theorem cv_fit_testPreds_average (clf : Estimator) (X : List Row) (y : Mat)
    (Xtest : List Row) (logLoss : List ℚ → List FVal → ℚ) (cv : Splitter)
    (n0 : ℕ) (hk : cv.folds.length = cv.nSplits) :
    (cv_fit clf X y Xtest logLoss (some cv) n0).testPreds =
      (foldTestPreds clf X y Xtest logLoss cv.folds).foldl
        (fun acc p => fmatAdd acc (fmatDivNat p cv.nSplits))
        (zeroMat Xtest.length (matWidth y)) ∧
    (cv_fit clf X y Xtest logLoss (some cv) n0).testPreds =
      specArithMean (zeroMat Xtest.length (matWidth y))
        (foldTestPreds clf X y Xtest logLoss cv.folds) ∧
    (∀ cv2 : Splitter, cv2.nSplits = cv.nSplits →
      List.Perm cv2.folds cv.folds →
      (cv_fit clf X y Xtest logLoss (some cv2) n0).testPreds =
        (cv_fit clf X y Xtest logLoss (some cv) n0).testPreds) := by
  refine ⟨cv_fit_testPreds_eq_foldl clf X y Xtest logLoss cv n0, ?_, ?_⟩
  · rw [cv_fit_testPreds_eq_div_sum, specArithMean]
    have hlen : (foldTestPreds clf X y Xtest logLoss cv.folds).length =
        cv.nSplits := by
      rw [foldTestPreds, List.length_map, hk]
    rw [hlen]
  · intro cv2 hn hperm
    rw [cv_fit_testPreds_eq_div_sum, cv_fit_testPreds_eq_div_sum, hn]
    simp only [sumPredsFrom, foldTestPreds]
    rw [foldl_fmatAdd_perm (hperm.map
      (fun f => (runFold clf X y Xtest logLoss f).testPred))]

/-- Splitter of the C4 and C6 witnesses: two plain folds over two rows. -/
def cvW : Splitter := ⟨2, [([0], [1]), ([1], [0])]⟩

/-- Estimator of the concrete orchestrator scenarios: ignores its training
data and predicts probability 1 for every test row's single label. -/
def oneEstimator : Estimator := ⟨fun _ _ Xq => Xq.map (fun _ => [.finite 1])⟩

/-- Loss metric used where a concrete stand-in for sklearn's `log_loss` is
required; the averaging claims hold for any metric. -/
def zeroLoss : List ℚ → List FVal → ℚ := fun _ _ => 0

/-- Feature rows of the concrete orchestrator scenarios. -/
def XW : List Row := [("trt_cp", [1]), ("ctl_vehicle", [2])]

/-- Label rows of the concrete orchestrator scenarios. -/
def yW : Mat := [[1], [0]]

/-- Witness for C4 on the two-fold splitter `cvW`. -/
theorem cv_fit_testPreds_average_witness :
    (cv_fit oneEstimator XW yW XW zeroLoss (some cvW) 5).testPreds =
      (foldTestPreds oneEstimator XW yW XW zeroLoss cvW.folds).foldl
        (fun acc p => fmatAdd acc (fmatDivNat p cvW.nSplits))
        (zeroMat XW.length (matWidth yW)) ∧
    (cv_fit oneEstimator XW yW XW zeroLoss (some cvW) 5).testPreds =
      specArithMean (zeroMat XW.length (matWidth yW))
        (foldTestPreds oneEstimator XW yW XW zeroLoss cvW.folds) ∧
    (∀ cv2 : Splitter, cv2.nSplits = cvW.nSplits →
      List.Perm cv2.folds cvW.folds →
      (cv_fit oneEstimator XW yW XW zeroLoss (some cv2) 5).testPreds =
        (cv_fit oneEstimator XW yW XW zeroLoss (some cvW) 5).testPreds) :=
  cv_fit_testPreds_average oneEstimator XW yW XW zeroLoss cvW 5 (by decide)

/-- C6 counterexample: at `k = 1` — inside the claim's "every k ≥ 1", on a
two-row input — the run raises instead of returning one estimator:
`KFold(n_splits=1)` is rejected at construction (`_BaseKFold.__init__`
requires at least two splits), so `cv_fit` produces no result at all. -/
theorem kfold_one_split_counterexample :
    cv_fit_default oneEstimator XW yW XW zeroLoss 1 = .error .mk ∧
    1 ≤ XW.length := by
  exact ⟨rfl, by decide⟩

/-- C6 amended: for every `k ≥ 2` with at most as many splits as rows (the
inputs the default `KFold(n_splits=k)` accepts — it raises ValueError for
`n_splits ≤ 1` at construction and for more splits than samples at split
time), `cv_fit` returns rather than raising, with exactly `k` fitted
estimators and train- and validation-loss sequences of length `k`. -/
theorem cv_fit_default_returns_k_results (clf : Estimator) (X : List Row)
    (y : Mat) (Xtest : List Row) (logLoss : List ℚ → List FVal → ℚ)
    (k : ℕ) (hk : 2 ≤ k) (hkn : k ≤ X.length) :
    cv_fit_default clf X y Xtest logLoss k =
      .ok (cv_fit clf X y Xtest logLoss (some (kfold k X.length)) k) ∧
    (cv_fit clf X y Xtest logLoss (some (kfold k X.length))
      k).estimators.length = k ∧
    (cv_fit clf X y Xtest logLoss (some (kfold k X.length))
      k).lossesTrain.length = k ∧
    (cv_fit clf X y Xtest logLoss (some (kfold k X.length))
      k).lossesValid.length = k := by
  refine ⟨?_, ?_, ?_, ?_⟩
  · simp [cv_fit_default, KFold, Nat.not_lt.mpr hk, Nat.not_lt.mpr hkn,
      Except.map]
  all_goals simp [cv_fit, kfold, kfoldValSets]

/-- Witness for the amended C6 at `k = 2` on the two-row input. -/
theorem cv_fit_default_returns_k_results_witness :
    cv_fit_default oneEstimator XW yW XW zeroLoss 2 =
      .ok (cv_fit oneEstimator XW yW XW zeroLoss
        (some (kfold 2 XW.length)) 2) ∧
    (cv_fit oneEstimator XW yW XW zeroLoss (some (kfold 2 XW.length))
      2).estimators.length = 2 ∧
    (cv_fit oneEstimator XW yW XW zeroLoss (some (kfold 2 XW.length))
      2).lossesTrain.length = 2 ∧
    (cv_fit oneEstimator XW yW XW zeroLoss (some (kfold 2 XW.length))
      2).lossesValid.length = 2 :=
  cv_fit_default_returns_k_results oneEstimator XW yW XW zeroLoss 2
    (by decide) (by decide)

theorem mem_dropCtl_fst {X : List Row} {y : Mat} {r : Row}
    (hr : r ∈ (dropCtl X y).1) : r.1 ≠ ctlVehicle := by
  simp only [dropCtl, List.mem_map, List.mem_filter] at hr
  obtain ⟨p, ⟨_, hpred⟩, rfl⟩ := hr
  simpa using hpred

theorem mem_cvFoldVal {X : List Row} {fold : List ℕ × List ℕ} {i : ℕ}
    {v : Row} (hi : i ∈ fold.2) (hv : X[i]? = some v) :
    v ∈ cvFoldVal X fold := by
  simp only [cvFoldVal, selectIdx, List.mem_filterMap]
  exact ⟨i, hi, hv⟩

/-- C5: in every fold, every row of the training data handed to the
estimator's fit call (and to the training-loss computation, which runs on
the same rows) has a treatment type other than `"ctl_vehicle"`; the same
holds in single-shot `fit`; but a row sitting at a validation index — even
a control row — stays in the validation set, and the training losses are
computed from exactly the control-filtered per-fold training data. -/
theorem ctl_rows_excluded_from_training (clf : Estimator) (X X2 : List Row)
    (y y2 : Mat) (Xtest : List Row) (logLoss : List ℚ → List FVal → ℚ)
    (cv : Splitter) (n0 : ℕ) (fold : List ℕ × List ℕ) (r s v : Row) (i : ℕ)
    (hr : r ∈ (cvFoldTrain X y fold).1)
    (hs : s ∈ (dropCtl X2 y2).1)
    (hi : i ∈ fold.2) (hv : X[i]? = some v) :
    r.1 ≠ ctlVehicle ∧ s.1 ≠ ctlVehicle ∧ v ∈ cvFoldVal X fold ∧
    cvFoldVal X fold = selectIdx X fold.2 ∧
    (cv_fit clf X y Xtest logLoss (some cv) n0).lossesTrain =
      cv.folds.map (fun f =>
        logLoss (cvFoldTrain X y f).2.flatten
          (fmatNanToNum (clf.fitPredict (cvFoldTrain X y f).1
            (cvFoldTrain X y f).2 (cvFoldTrain X y f).1)).flatten) := by
  refine ⟨mem_dropCtl_fst hr, mem_dropCtl_fst hs, mem_cvFoldVal hi hv, rfl,
    ?_⟩
  simp [cv_fit, runFold, List.map_map, Function.comp]

/-- Witness for C5: the control row of `XW` sits at the validation index 0
of the fold `([0, 1], [0])`, so it survives into the validation set while
the filtered training set keeps only the treated row. -/
theorem ctl_rows_excluded_from_training_witness :
    ("trt_cp", [(1 : ℚ)]).1 ≠ ctlVehicle ∧
    ("trt_cp", [(1 : ℚ)]).1 ≠ ctlVehicle ∧
    ("ctl_vehicle", [(2 : ℚ)]) ∈ cvFoldVal XW ([0, 1], [1]) ∧
    cvFoldVal XW ([0, 1], [1]) = selectIdx XW ([0, 1], [1]).2 ∧
    (cv_fit oneEstimator XW yW XW zeroLoss (some cvW) 5).lossesTrain =
      cvW.folds.map (fun f =>
        zeroLoss (cvFoldTrain XW yW f).2.flatten
          (fmatNanToNum (oneEstimator.fitPredict (cvFoldTrain XW yW f).1
            (cvFoldTrain XW yW f).2 (cvFoldTrain XW yW f).1)).flatten) :=
  ctl_rows_excluded_from_training oneEstimator XW XW yW yW XW zeroLoss cvW 5
    ([0, 1], [1]) ("trt_cp", [1]) ("trt_cp", [1]) ("ctl_vehicle", [2]) 1
    (by decide) (by decide) (by decide) (by decide)

/-! Finiteness of everything downstream of `np.nan_to_num` (claim C8). -/

theorem allFinite_fmatNanToNum (A : FMat) : allFinite (fmatNanToNum A) := by
  intro r hr v hv
  simp only [fmatNanToNum, List.mem_map] at hr
  obtain ⟨r0, _, rfl⟩ := hr
  simp only [List.mem_map] at hv
  obtain ⟨v0, _, rfl⟩ := hv
  cases v0 <;> rfl

theorem allFinite_zeroMat (r c : ℕ) : allFinite (zeroMat r c) := by
  intro row hrow v hv
  simp only [zeroMat, List.mem_replicate] at hrow
  rw [hrow.2] at hv
  simp only [List.mem_replicate] at hv
  rw [hv.2]
  rfl

theorem allFinite_fmatDivNat {A : FMat} (h : allFinite A) (k : ℕ) :
    allFinite (fmatDivNat A k) := by
  intro r hr v hv
  simp only [fmatDivNat, List.mem_map] at hr
  obtain ⟨r0, hr0, rfl⟩ := hr
  simp only [List.mem_map] at hv
  obtain ⟨v0, hv0, rfl⟩ := hv
  have := h r0 hr0 v0 hv0
  cases v0 <;> simp_all [FVal.divNat, FVal.isFinite]

theorem of_mem_zipWith {α β γ : Type} {f : α → β → γ} {l1 : List α}
    {l2 : List β} {x : γ} (hx : x ∈ List.zipWith f l1 l2) :
    ∃ a ∈ l1, ∃ b ∈ l2, x = f a b := by
  induction l1 generalizing l2 with
  | nil => simp at hx
  | cons a as ih =>
    cases l2 with
    | nil => simp at hx
    | cons b bs =>
      simp only [List.zipWith_cons_cons, List.mem_cons] at hx
      rcases hx with rfl | hx
      · exact ⟨a, by simp, b, by simp, rfl⟩
      · obtain ⟨a0, ha0, b0, hb0, rfl⟩ := ih hx
        exact ⟨a0, by simp [ha0], b0, by simp [hb0], rfl⟩

theorem allFinite_fmatAdd {A B : FMat} (hA : allFinite A)
    (hB : allFinite B) : allFinite (fmatAdd A B) := by
  intro r hr v hv
  obtain ⟨a, ha, b, hb, rfl⟩ := of_mem_zipWith hr
  obtain ⟨va, hva, vb, hvb, rfl⟩ := of_mem_zipWith hv
  have h1 := hA a ha va hva
  have h2 := hB b hb vb hvb
  cases va <;> cases vb <;> simp_all [FVal.add, FVal.isFinite]

theorem allFinite_foldl_div {l : List FMat} {Z : FMat} {k : ℕ}
    (hZ : allFinite Z) (hl : ∀ p ∈ l, allFinite p) :
    allFinite (l.foldl (fun acc p => fmatAdd acc (fmatDivNat p k)) Z) := by
  induction l generalizing Z with
  | nil => exact hZ
  | cons p ps ih =>
    simp only [List.foldl_cons]
    exact ih
      (allFinite_fmatAdd hZ
        (allFinite_fmatDivNat (hl p (by simp)) k))
      (fun q hq => hl q (by simp [hq]))

/-- Estimator of the C8 counterexample: its raw probability for the single
test row is `+inf`. -/
def infEstimator : Estimator := ⟨fun _ _ _ => [[.posInf]]⟩

/-- One-fold splitter of the C8 counterexample. -/
def cvOne : Splitter := ⟨1, [([0], [0])]⟩

/-- Single test row of the C8 counterexample. -/
def XtestC8 : List Row := [("trt_cp", [1])]

theorem runFold_testPred (clf : Estimator) (X : List Row) (y : Mat)
    (Xtest : List Row) (logLoss : List ℚ → List FVal → ℚ)
    (fold : List ℕ × List ℕ) :
    (runFold clf X y Xtest logLoss fold).testPred =
      fmatNanToNum (clf.fitPredict (cvFoldTrain X y fold).1
        (cvFoldTrain X y fold).2 Xtest) := rfl

/-- C8 counterexample: `np.nan_to_num` replaces an infinity with the
largest finite double, not with 0 — on a run whose estimator emits `+inf`,
the returned test-prediction matrix is `[[1.797...e308]]`, which is not
`[[0]]` (NaN alone is replaced with 0). -/
theorem sanitize_inf_counterexample :
    FVal.nanToNum .posInf = .finite maxFloat ∧
    FVal.nanToNum .posInf ≠ .finite 0 ∧
    (cv_fit infEstimator XW yW XtestC8 zeroLoss (some cvOne) 5).testPreds ≠
      [[.finite 0]] ∧
    (cv_fit infEstimator XW yW XtestC8 zeroLoss (some cvOne) 5).testPreds =
      [[.finite maxFloat]] := by
  have hmax : maxFloat ≠ 0 := by norm_num [maxFloat]
  have hpred : (runFold infEstimator XW yW XtestC8 zeroLoss
      ([0], [0])).testPred = [[FVal.finite maxFloat]] := rfl
  have hval : (cv_fit infEstimator XW yW XtestC8 zeroLoss (some cvOne)
      5).testPreds = [[FVal.finite maxFloat]] := by
    simp only [cv_fit, cvOne, Option.getD_some, List.map_cons, List.map_nil,
      List.foldl_cons, List.foldl_nil]
    rw [hpred]
    norm_num [fmatAdd, fmatDivNat, FVal.divNat, FVal.add, zeroMat, XtestC8,
      yW, matWidth, List.replicate_succ]
  refine ⟨rfl, ?_, ?_, hval⟩
  · simp [FVal.nanToNum, hmax]
  · rw [hval]
    simp [hmax]

/-- C8 amended: both entry points sanitize every probability matrix with
`np.nan_to_num` before it reaches a loss computation or the returned
test-prediction matrix — NaN becomes 0 and ±Inf the largest-magnitude
finite double — so no NaN or Inf value ever reaches a loss computation or
the returned test predictions: every sanitized matrix is entirely finite,
the loss sequences are computed from the sanitized predictions, and the
returned test-prediction matrices of `cv_fit` and `fit` are entirely
finite. -/
theorem sanitization_amended (clf : Estimator) (X X2 : List Row)
    (y y2 : Mat) (Xtest : List Row) (logLoss : List ℚ → List FVal → ℚ)
    (cv : Splitter) (n0 : ℕ) (A : FMat) :
    allFinite (fmatNanToNum A) ∧
    (cv_fit clf X y Xtest logLoss (some cv) n0).lossesValid =
      cv.folds.map (fun f =>
        logLoss (selectIdx y f.2).flatten
          (fmatNanToNum (clf.fitPredict (cvFoldTrain X y f).1
            (cvFoldTrain X y f).2 (cvFoldVal X f))).flatten) ∧
    allFinite (cv_fit clf X y Xtest logLoss (some cv) n0).testPreds ∧
    (fit clf X2 y2 Xtest logLoss).2.1 =
      [logLoss (dropCtl X2 y2).2.flatten
        (fmatNanToNum (clf.fitPredict (dropCtl X2 y2).1 (dropCtl X2 y2).2
          (dropCtl X2 y2).1)).flatten] ∧
    (fit clf X2 y2 Xtest logLoss).2.2.1 =
      (fit clf X2 y2 Xtest logLoss).2.1 ∧
    allFinite (fit clf X2 y2 Xtest logLoss).2.2.2 := by
  refine ⟨allFinite_fmatNanToNum A, ?_, ?_, rfl, rfl, ?_⟩
  · simp [cv_fit, runFold, List.map_map, Function.comp]
  · rw [cv_fit_testPreds_eq_foldl]
    refine allFinite_foldl_div (allFinite_zeroMat _ _) ?_
    intro p hp
    simp only [foldTestPreds, List.mem_map] at hp
    obtain ⟨f, _, rfl⟩ := hp
    rw [runFold_testPred]
    exact allFinite_fmatNanToNum _
  · exact allFinite_fmatNanToNum _

theorem entryAt_fmatDivNat {A : FMat} {i j : ℕ} (k : ℕ) (hi : i < A.length)
    (hj : j < (A.getD i []).length) :
    entryAt (fmatDivNat A k) i j = (entryAt A i j).divNat k := by
  have hi' : i < (fmatDivNat A k).length := by
    simpa [fmatDivNat] using hi
  unfold entryAt
  rw [List.getD_eq_getElem _ _ hi] at hj
  rw [List.getD_eq_getElem _ _ hi', List.getD_eq_getElem _ _ hi]
  simp only [fmatDivNat, List.getElem_map]
  have hj' : j < (A[i].map (fun v => v.divNat k)).length := by simpa using hj
  rw [List.getD_eq_getElem _ _ hj', List.getD_eq_getElem _ _ hj]
  simp

/-- C10 amended: `cv_fit` returns the elementwise sum over the folds the
splitter actually yielded of each fold's sanitized test prediction divided
by the splitter's declared `n_splits` attribute — not by the count of
yielded folds — so whenever that count differs from `n_splits` and the
summed predictions have a nonzero entry, the result is not the arithmetic
mean of the per-fold predictions (with an all-zero sum the two divisions
coincide). -/
theorem testPreds_divided_by_nsplits (clf : Estimator) (X : List Row)
    (y : Mat) (Xtest : List Row) (logLoss : List ℚ → List FVal → ℚ)
    (cv : Splitter) (n0 : ℕ) (i j : ℕ) (q : ℚ)
    (hc : cv.folds.length ≠ cv.nSplits)
    (hi : i < (sumPredsFrom (zeroMat Xtest.length (matWidth y))
      (foldTestPreds clf X y Xtest logLoss cv.folds)).length)
    (hj : j < ((sumPredsFrom (zeroMat Xtest.length (matWidth y))
      (foldTestPreds clf X y Xtest logLoss cv.folds)).getD i []).length)
    (hq : entryAt (sumPredsFrom (zeroMat Xtest.length (matWidth y))
      (foldTestPreds clf X y Xtest logLoss cv.folds)) i j = .finite q)
    (hq0 : q ≠ 0) :
    (cv_fit clf X y Xtest logLoss (some cv) n0).testPreds =
      fmatDivNat (sumPredsFrom (zeroMat Xtest.length (matWidth y))
        (foldTestPreds clf X y Xtest logLoss cv.folds)) cv.nSplits ∧
    (cv_fit clf X y Xtest logLoss (some cv) n0).testPreds ≠
      specArithMean (zeroMat Xtest.length (matWidth y))
        (foldTestPreds clf X y Xtest logLoss cv.folds) := by
  refine ⟨cv_fit_testPreds_eq_div_sum clf X y Xtest logLoss cv n0, ?_⟩
  intro heq
  rw [cv_fit_testPreds_eq_div_sum clf X y Xtest logLoss cv n0,
    specArithMean] at heq
  have h2 := congrArg (fun M => entryAt M i j) heq
  simp only [] at h2
  rw [entryAt_fmatDivNat cv.nSplits hi hj,
    entryAt_fmatDivNat (foldTestPreds clf X y Xtest logLoss
      cv.folds).length hi hj, hq] at h2
  simp only [FVal.divNat, FVal.finite.injEq] at h2
  have h3 : ((cv.nSplits : ℚ))⁻¹ = (((foldTestPreds clf X y Xtest logLoss
      cv.folds).length : ℚ))⁻¹ := by
    have h4 : q * ((cv.nSplits : ℚ))⁻¹ = q * (((foldTestPreds clf X y Xtest
        logLoss cv.folds).length : ℚ))⁻¹ := by
      rw [← div_eq_mul_inv, ← div_eq_mul_inv]
      exact h2
    exact mul_left_cancel₀ hq0 h4
  have h5 : cv.nSplits = (foldTestPreds clf X y Xtest logLoss
      cv.folds).length := Nat.cast_inj.mp (inv_inj.mp h3)
  rw [foldTestPreds, List.length_map] at h5
  exact hc h5.symm

/-- Splitter of the C10 scenarios: it declares `n_splits = 4` but yields a
single fold. -/
def cvC10 : Splitter := ⟨4, [([0], [1])]⟩

/-- Witness for C10 (amended): with `cvC10` and the constant-1 estimator,
the summed prediction entry is 1 ≠ 0, one fold was yielded while
`n_splits = 4`, and the returned matrix — the sum divided by 4 — is not
the mean of the yielded predictions. -/
theorem testPreds_divided_by_nsplits_witness :
    (cv_fit oneEstimator XW yW XtestC8 zeroLoss (some cvC10) 5).testPreds =
      fmatDivNat (sumPredsFrom (zeroMat XtestC8.length (matWidth yW))
        (foldTestPreds oneEstimator XW yW XtestC8 zeroLoss cvC10.folds))
        cvC10.nSplits ∧
    (cv_fit oneEstimator XW yW XtestC8 zeroLoss (some cvC10) 5).testPreds ≠
      specArithMean (zeroMat XtestC8.length (matWidth yW))
        (foldTestPreds oneEstimator XW yW XtestC8 zeroLoss cvC10.folds) :=
  testPreds_divided_by_nsplits oneEstimator XW yW XtestC8 zeroLoss cvC10 5
    0 0 1 (by decide)
    (by simp [sumPredsFrom, foldTestPreds, cvC10, runFold_testPred,
      oneEstimator, fmatNanToNum, FVal.nanToNum, fmatAdd, zeroMat, XtestC8,
      yW, matWidth, FVal.add])
    (by simp [sumPredsFrom, foldTestPreds, cvC10, runFold_testPred,
      oneEstimator, fmatNanToNum, FVal.nanToNum, fmatAdd, zeroMat, XtestC8,
      yW, matWidth, FVal.add])
    (by simp [sumPredsFrom, foldTestPreds, cvC10, runFold_testPred,
      oneEstimator, fmatNanToNum, FVal.nanToNum, fmatAdd, zeroMat, XtestC8,
      yW, matWidth, FVal.add, entryAt])
    (by decide)

/-- Estimator of the C10 counterexample: probability 0 for every test row's
single label. -/
def zeroEstimator : Estimator := ⟨fun _ _ Xq => Xq.map (fun _ => [.finite 0])⟩

/-- Splitter of the C10 counterexample: `n_splits = 4` declared, two folds
yielded. -/
def cvC10z : Splitter := ⟨4, [([0], [1]), ([1], [0])]⟩

/-- C10 counterexample: on a run whose splitter yields 2 folds but declares
`n_splits = 4`, with an estimator predicting 0 everywhere, the returned
test-prediction matrix nevertheless equals the arithmetic mean of the
yielded per-fold predictions (both are zero), so differing counts do not by
themselves make the result differ from the mean. -/
theorem test_preds_divisor_counterexample :
    cvC10z.folds.length ≠ cvC10z.nSplits ∧
    (cv_fit zeroEstimator XW yW XtestC8 zeroLoss (some cvC10z) 5).testPreds =
      specArithMean (zeroMat XtestC8.length (matWidth yW))
        (foldTestPreds zeroEstimator XW yW XtestC8 zeroLoss cvC10z.folds) := by
  refine ⟨by decide, ?_⟩
  have hp1 : (runFold zeroEstimator XW yW XtestC8 zeroLoss
      ([0], [1])).testPred = [[FVal.finite 0]] := rfl
  have hp2 : (runFold zeroEstimator XW yW XtestC8 zeroLoss
      ([1], [0])).testPred = [[FVal.finite 0]] := rfl
  rw [cv_fit_testPreds_eq_div_sum]
  simp only [specArithMean, sumPredsFrom, foldTestPreds, cvC10z,
    List.map_cons, List.map_nil, List.foldl_cons, List.foldl_nil, hp1, hp2,
    List.length_cons, List.length_nil]
  norm_num [fmatAdd, fmatDivNat, FVal.divNat, FVal.add, zeroMat, XtestC8,
    yW, matWidth, List.replicate_succ]

end Kmlp
